import Mathlib

/-!
Shallow embedding of SONAR `annotate/find_umis.py` (the per-read UMI/barcode
extraction, validation, trimming and grouping loop in `main`, together with the
startup helpers it relies on: option-dict lookups, region parsing, IUPAC
compilation, and the two filename derivations).

Conventions of the embedding:
* sequences are `List Char`; read ids and dictionary keys are `String`;
* Python slicing `s[a:b]` for nonnegative bounds is `(s.take b).drop a`;
* the docopt arguments dictionary is modelled by explicit fields plus a
  lookup function that returns `Except` with the missing key, mirroring the
  fact that reading an undeclared key raises `KeyError`;
* fallible per-read processing returns `Except Fatal`, where `Fatal` covers
  the ways the real loop terminates the whole process.
-/

namespace FindUmis

/-- Python slice `s[a:b]` for nonnegative bounds: elements `a ≤ i < b`. -/
def pySlice {α : Type} (a b : Nat) (s : List α) : List α := (s.take b).drop a

/-- Watson-Crick complement of one IUPAC nucleotide letter, as applied by the
`reverse_complement()` calls on lines 93 and 123 of `find_umis.py`.
Self-complementary codes (`S`, `W`, `N`) and anything unrecognised map to
themselves. -/
def compBase (c : Char) : Char :=
  if c = 'A' then 'T'
  else if c = 'T' then 'A'
  else if c = 'C' then 'G'
  else if c = 'G' then 'C'
  else if c = 'U' then 'A'
  else if c = 'R' then 'Y'
  else if c = 'Y' then 'R'
  else if c = 'K' then 'M'
  else if c = 'M' then 'K'
  else if c = 'B' then 'V'
  else if c = 'V' then 'B'
  else if c = 'D' then 'H'
  else if c = 'H' then 'D'
  else c

/-- `seq.reverse_complement()`: complement every base, then reverse. -/
def revComp (s : List Char) : List Char := (s.map compBase).reverse

/-- `re.sub(suf + "$", "", s)` for a literal suffix: remove one trailing
occurrence of `suf` when present, otherwise leave `s` unchanged. -/
def stripEnd (suf s : List Char) : List Char :=
  if suf.length ≤ s.length ∧ s.drop (s.length - suf.length) = suf then
    s.take (s.length - suf.length)
  else s

/-- Line 86: `re.sub("/1$", "", seq.id)`. -/
def stripR1 (id : String) : String := ⟨stripEnd "/1".toList id.toList⟩

/-- Line 86: `re.sub("/2$", "", r2Seq.id)`. -/
def stripR2 (id : String) : String := ⟨stripEnd "/2".toList id.toList⟩

/-- The `iupac` table of line 184: the set of characters each IUPAC code is
replaced by when the code is compiled into a character class.  A character
outside the table yields `none`, modelling the `KeyError` the lambda raises. -/
def iupacClass (c : Char) : Option (List Char) :=
  if c = 'A' then some ['A']
  else if c = 'C' then some ['C']
  else if c = 'G' then some ['G']
  else if c = 'T' then some ['U', 'T']
  else if c = 'U' then some ['U', 'T']
  else if c = 'M' then some ['A', 'C']
  else if c = 'R' then some ['A', 'G']
  else if c = 'W' then some ['A', 'T']
  else if c = 'S' then some ['C', 'G']
  else if c = 'Y' then some ['C', 'T']
  else if c = 'K' then some ['G', 'T']
  else if c = 'V' then some ['A', 'C', 'G']
  else if c = 'H' then some ['A', 'C', 'T']
  else if c = 'D' then some ['A', 'G', 'T']
  else if c = 'B' then some ['C', 'G', 'T']
  else if c = 'N' then some ['A', 'C', 'G', 'T', 'U']
  else none

/-- Lines 192-193 (and 199-200, 206-207): compile an IUPAC template into a
sequence of per-position character classes, uppercasing each template letter
before the table lookup. -/
def compilePattern (p : String) : Option (List (List Char)) :=
  p.toList.mapM (fun c => iupacClass c.toUpper)

/-- Semantics of `re.match(compiled, v)` for a compiled class-sequence:
`re.match` anchors at the start of `v` only, so it succeeds precisely when
every class matches the corresponding character of a prefix of `v`. -/
def classMatch : List (List Char) → List Char → Bool
  | [], _ => true
  | _ :: _, [] => false
  | cls :: ps, c :: cs => cls.contains c && classMatch ps cs

/-- Stated from the specification text, for comparison with the code: a
full-string match of the compiled classes against the value, i.e. the classes
must consume the whole value, not merely a prefix of it. -/
def specFullStringMatch (p : List (List Char)) (v : List Char) : Bool :=
  classMatch p v && (v.length == p.length)

/-- Lines 97, 110, 123: `any([x < minQ for x in quals[a:b]])`. -/
def lowQualWindow (minQ : Int) (quals : List Int) (a b : Nat) : Bool :=
  (pySlice a b quals).any (fun x => decide (x < minQ))

/-- The keys the docopt dictionary actually contains, from the usage string in
the module docstring of `find_umis.py`.  Reading any other key raises
`KeyError`. -/
def docoptKeys : List String :=
  ["FASTA", "FORMAT", "--cell", "--umi", "--r2umi", "--pe", "--revcomp",
   "--cellWhiteList", "--cellPattern", "--umiWhiteList", "--umiPattern",
   "--umi2WhiteList", "--umi2Pattern", "--minQ", "--help"]

/-- Result of one whitelist/quality validation block of the loop. -/
inductive CheckRes
  | pass
  | lowQual
  | badUmi
  | keyErr (k : String)
deriving DecidableEq

/-- Lines 96-107: the cell-barcode block.  An empty value skips the block; a
low-quality window (FASTQ only) wins first; otherwise a configured whitelist
is consulted, else a configured compiled IUPAC class-sequence via `re.match`,
else the value passes. -/
def cellCheckBlock (format : String) (minQ : Int) (quals : List Int) (a b : Nat)
    (wl : Option (List String)) (pat : Option (List (List Char))) (v : String) : CheckRes :=
  if v = "" then CheckRes.pass
  else if format == "fastq" && lowQualWindow minQ quals a b then CheckRes.lowQual
  else
    match wl with
    | some w => if w.contains v then CheckRes.pass else CheckRes.badUmi
    | none =>
      match pat with
      | some p => if classMatch p v.toList then CheckRes.pass else CheckRes.badUmi
      | none => CheckRes.pass

/-- Lines 109-120: the forward-UMI block (an if/elif chain with the same
semantics as the cell block). -/
def umiCheckBlock (format : String) (minQ : Int) (quals : List Int) (a b : Nat)
    (wl : Option (List String)) (pat : Option (List (List Char))) (v : String) : CheckRes :=
  if v = "" then CheckRes.pass
  else if format == "fastq" && lowQualWindow minQ quals a b then CheckRes.lowQual
  else
    match wl with
    | some w => if w.contains v then CheckRes.pass else CheckRes.badUmi
    | none =>
      match pat with
      | some p => if classMatch p v.toList then CheckRes.pass else CheckRes.badUmi
      | none => CheckRes.pass

/-- Lines 122-133: the reverse-UMI block.  `revQuals` is the quality track of
the reverse-complemented record (line 123).  When no whitelist is configured,
line 130 evaluates `arguments["umi2--Pattern"]`; that key is not among
`docoptKeys`, so the dictionary lookup raises `KeyError` before the template
(line 131, which spells the key correctly) can ever be consulted.  The inner
branch is kept to mirror lines 130-133, but it is unreachable. -/
def umi2CheckBlock (format : String) (minQ : Int) (revQuals : List Int) (a b : Nat)
    (wl : Option (List String)) (pat : Option (List (List Char))) (v : String) : CheckRes :=
  if v = "" then CheckRes.pass
  else if format == "fastq" && lowQualWindow minQ revQuals a b then CheckRes.lowQual
  else
    match wl with
    | some w => if w.contains v then CheckRes.pass else CheckRes.badUmi
    | none =>
      if docoptKeys.contains "umi2--Pattern" then
        match pat with
        | some p => if classMatch p v.toList then CheckRes.pass else CheckRes.badUmi
        | none => CheckRes.pass
      else CheckRes.keyErr "umi2--Pattern"

/-- One parsed input record: id, sequence, per-base qualities (present and
meaningful only for FASTQ input). -/
structure Rd where
  id : String
  seq : List Char
  qual : List Int

/-- The configuration `main` works with after startup: format, quality
threshold, the three offset windows, per-field whitelists and compiled
templates, and the two mode flags. -/
structure Config where
  format : String
  minQ : Int
  cb_start : Nat
  cb_end : Nat
  umi_start : Nat
  umi_end : Nat
  umi2_start : Nat
  umi2_end : Nat
  cellWhiteList : Option (List String)
  cellPattern : Option (List (List Char))
  umiWhiteList : Option (List String)
  umiPattern : Option (List (List Char))
  umi2WhiteList : Option (List String)
  umi2Pattern : Option (List (List Char))
  pe : Bool
  revcomp : Bool

/-- Lines 145-155, key part: if the cell barcode is empty it becomes the
molecule id; then, if the molecule id is empty it becomes the (possibly just
updated) cell barcode.  Returns the pair used as Grouping Store keys. -/
def reconcile (cb mol : String) : String × String :=
  let cb1 := if cb = "" then mol else cb
  let mol1 := if mol = "" then cb1 else mol
  (cb1, mol1)

/-- Lines 146 and 152: append `;cell=<cb>` when the cell barcode is non-empty
and `;umi=<mol>` when the molecule id is non-empty, in that order, using the
values from before reconciliation. -/
def annotateId (sid cb mol : String) : String :=
  let sid1 := if cb = "" then sid else sid ++ ";cell=" ++ cb
  if mol = "" then sid1 else sid1 ++ ";umi=" ++ mol

/-- Lines 135-155: combine the UMIs, trim the consumed windows from the
primary record, substitute the mate record wholesale in paired mode (else
optionally reverse-complement), then annotate the id and reconcile the keys.
Returns (annotated id, final sequence, cell key, molecule key).  In paired
mode the `none` mate branch is unreachable because the mate was pulled before
this point. -/
def trimAnnotate (cb_end umi_end umi2_end : Nat) (pe rc : Bool) (rd : Rd)
    (mate : Option Rd) (cb fwd rev : String) : String × List Char × String × String :=
  let mol := fwd ++ rev
  let s1 := rd.seq.drop (max cb_end umi_end)
  let s2 := if 0 < umi2_end then s1.take (s1.length - umi2_end) else s1
  let pr : String × List Char :=
    if pe then
      match mate with
      | some r2 => (r2.id, r2.seq)
      | none => (rd.id, s2)
    else if rc then (rd.id, revComp s2) else (rd.id, s2)
  let keys := reconcile cb mol
  (annotateId pr.1 cb mol, pr.2, keys.1, keys.2)

/-- Innermost Grouping Store level: distinct sequence string to the ordered
list of read ids that produced it. -/
abbrev Bucket := List (String × List String)

/-- Middle level: molecule id to `Bucket`. -/
abbrev MolMap := List (String × Bucket)

/-- `umi_dict`: cell barcode to `MolMap`, insertion-ordered like a Python
dict. -/
abbrev Store := List (String × MolMap)

/-- Lines 160-163: start a fresh singleton list for an unseen sequence string,
else append the read id at the end of the existing list. -/
def appendAt : Bucket → String → String → Bucket
  | [], k, v => [(k, [v])]
  | (k2, vs) :: rest, k, v =>
    if k2 = k then (k2, vs ++ [v]) :: rest else (k2, vs) :: appendAt rest k v

/-- The `defaultdict(dict)` level: `umi_dict[cell][mol]` springs into existence
on first use. -/
def updMol : MolMap → String → String → String → MolMap
  | [], mol, sq, rid => [(mol, [(sq, [rid])])]
  | (k2, b) :: rest, mol, sq, rid =>
    if k2 = mol then (k2, appendAt b sq rid) :: rest
    else (k2, b) :: updMol rest mol sq rid

/-- Lines 157-163: the single Grouping Store insert. -/
def insertStore : Store → String → String → String → String → Store
  | [], cb, mol, sq, rid => [(cb, [(mol, [(sq, [rid])])])]
  | (k2, m) :: rest, cb, mol, sq, rid =>
    if k2 = cb then (k2, updMol m mol sq rid) :: rest
    else (k2, m) :: insertStore rest cb mol sq rid

/-- Number of read ids in one `Bucket`. -/
def bucketCount : Bucket → Nat
  | [] => 0
  | (_, ids) :: rest => ids.length + bucketCount rest

/-- Number of read ids in one `MolMap`. -/
def molCount : MolMap → Nat
  | [] => 0
  | (_, b) :: rest => bucketCount b + molCount rest

/-- Total number of read ids stored across all (cell, molecule, sequence)
buckets. -/
def storeCount : Store → Nat
  | [] => 0
  | (_, m) :: rest => molCount m + storeCount rest

/-- The ways the loop terminates the whole process mid-run. -/
inductive Fatal
  | nameError (v : String)
  | keyError (k : String)
  | stopIteration
deriving DecidableEq

/-- Mutable loop state: (`umi_dict`, `count`, `low_qual`, `bad_umi`). -/
abbrev RunState := Store × Nat × Nat × Nat

/-- Lines 84-87: in paired mode pull one mate and compare ids after stripping
the `/1` and `/2` suffixes.  On mismatch the code calls
`sys.exit(f"... {seq.id} vs {tempseq.id}")`, but `tempseq` is not defined
anywhere in the script, so evaluating the f-string raises `NameError` before
`sys.exit` can run; the run still terminates, with a `NameError` traceback
instead of the intended message.  An exhausted mate stream raises
`StopIteration` from the explicit `next` call. -/
def syncCheck (pe : Bool) (rd : Rd) (mate : Option Rd) : Option Fatal :=
  if pe then
    match mate with
    | none => some Fatal.stopIteration
    | some r2 =>
      if stripR1 rd.id = stripR2 r2.id then none
      else some (Fatal.nameError "tempseq")
  else none

/-- Lines 96-133 in order: cell block, forward-UMI block, reverse-UMI block;
the first non-pass outcome wins and short-circuits the rest (each failing
block ends in `continue`). -/
def checksAll (cfg : Config) (rd : Rd) (cb fwd rev : String) : CheckRes :=
  match cellCheckBlock cfg.format cfg.minQ rd.qual cfg.cb_start cfg.cb_end
      cfg.cellWhiteList cfg.cellPattern cb with
  | CheckRes.pass =>
    match umiCheckBlock cfg.format cfg.minQ rd.qual cfg.umi_start cfg.umi_end
        cfg.umiWhiteList cfg.umiPattern fwd with
    | CheckRes.pass =>
      umi2CheckBlock cfg.format cfg.minQ rd.qual.reverse cfg.umi2_start cfg.umi2_end
        cfg.umi2WhiteList cfg.umi2Pattern rev
    | r => r
  | r => r

/-- Helper for the insertion performed on lines 157-163 from the tuple built
by `trimAnnotate`. -/
def insertOne (st : Store) (t : String × List Char × String × String) : Store :=
  insertStore st t.2.2.1 t.2.2.2 ⟨t.2.1⟩ t.1

/-- Lines 83-163: one iteration of the read loop.  Pair synchronisation first
(line 84-87), then `count += 1`, extraction of the three windows (lines
91-93), the three validation blocks, and finally trimming, annotation and the
Grouping Store insert. -/
def processRead (cfg : Config) (s : RunState) (rd : Rd) (mate : Option Rd) :
    Except Fatal RunState :=
  match syncCheck cfg.pe rd mate with
  | some e => Except.error e
  | none =>
    match checksAll cfg rd ⟨pySlice cfg.cb_start cfg.cb_end rd.seq⟩
        ⟨pySlice cfg.umi_start cfg.umi_end rd.seq⟩
        ⟨pySlice cfg.umi2_start cfg.umi2_end (revComp rd.seq)⟩ with
    | CheckRes.lowQual => Except.ok (s.1, s.2.1 + 1, s.2.2.1 + 1, s.2.2.2)
    | CheckRes.badUmi => Except.ok (s.1, s.2.1 + 1, s.2.2.1, s.2.2.2 + 1)
    | CheckRes.keyErr k => Except.error (Fatal.keyError k)
    | CheckRes.pass =>
      Except.ok
        (insertOne s.1
          (trimAnnotate cfg.cb_end cfg.umi_end cfg.umi2_end cfg.pe cfg.revcomp rd mate
            ⟨pySlice cfg.cb_start cfg.cb_end rd.seq⟩
            ⟨pySlice cfg.umi_start cfg.umi_end rd.seq⟩
            ⟨pySlice cfg.umi2_start cfg.umi2_end (revComp rd.seq)⟩),
         s.2.1 + 1, s.2.2.1, s.2.2.2)

/-- The whole loop over the primary stream, advancing the mate stream in
lockstep only in paired mode. -/
def runMain (cfg : Config) : List Rd → List Rd → RunState → Except Fatal RunState
  | [], _, s => Except.ok s
  | rd :: rds, mates, s =>
    match processRead cfg s rd mates.head? with
    | Except.error e => Except.error e
    | Except.ok s2 => runMain cfg rds (if cfg.pe then mates.tail else mates) s2

/-- The option-valued entries of the docopt dictionary (string options carry
`Option String`; flags and positionals are handled separately and are not
consulted by the region-parsing lines). -/
structure ArgsMap where
  cell : Option String
  umi : Option String
  r2umi : Option String
  cellWhiteList : Option String
  cellPattern : Option String
  umiWhiteList : Option String
  umiPattern : Option String
  umi2WhiteList : Option String
  umi2Pattern : Option String
  minQ : Option String

/-- Dictionary access `arguments[k]` for the option-valued keys: a declared
key returns its value, any other key raises `KeyError` (modelled as
`Except.error k`). -/
def lookupOptArg (a : ArgsMap) (k : String) : Except String (Option String) :=
  if k = "--cell" then Except.ok a.cell
  else if k = "--umi" then Except.ok a.umi
  else if k = "--r2umi" then Except.ok a.r2umi
  else if k = "--cellWhiteList" then Except.ok a.cellWhiteList
  else if k = "--cellPattern" then Except.ok a.cellPattern
  else if k = "--umiWhiteList" then Except.ok a.umiWhiteList
  else if k = "--umiPattern" then Except.ok a.umiPattern
  else if k = "--umi2WhiteList" then Except.ok a.umi2WhiteList
  else if k = "--umi2Pattern" then Except.ok a.umi2Pattern
  else if k = "--minQ" then Except.ok a.minQ
  else Except.error k

/-- `[int(x) for x in v.split(",")]` bound to a pair, for well-formed
nonnegative inputs such as `0,8`; a malformed component parses as 0 here
(the script itself would raise `ValueError`, which no claim exercises). -/
def parsePair (v : String) : Nat × Nat :=
  match (v.splitOn ",").map (fun x => x.toNat?.getD 0) with
  | [x, y] => (x, y)
  | _ => (0, 0)

/-- Lines 52-54: the cell window from `--cell`, defaulting to (0, 0). -/
def cellRegion (a : ArgsMap) : Except String (Nat × Nat) :=
  match a.cell with
  | none => Except.ok (0, 0)
  | some s => Except.ok (parsePair s)

/-- Lines 56-58: the forward-UMI window from `--umi`, defaulting to (0, 0). -/
def umiRegion (a : ArgsMap) : Except String (Nat × Nat) :=
  match a.umi with
  | none => Except.ok (0, 0)
  | some s => Except.ok (parsePair s)

/-- Lines 60-62: the reverse-UMI window.  Line 61 tests the declared key
`--r2umi`, but line 62 reads `arguments["--umi2"]`, a key docopt never
defines, so whenever `--r2umi` was supplied the lookup raises `KeyError`
(and if the key somehow held `None`, `.split` on it would raise
`AttributeError`). -/
def umi2Region (a : ArgsMap) : Except String (Nat × Nat) :=
  match a.r2umi with
  | none => Except.ok (0, 0)
  | some _ =>
    match lookupOptArg a "--umi2" with
    | Except.error k => Except.error k
    | Except.ok none => Except.error "AttributeError"
    | Except.ok (some s) => Except.ok (parsePair s)

/-- Match one literal list at the head: `some rest` on success. -/
def dropPrefixL : List Char → List Char → Option (List Char)
  | [], s => some s
  | _ :: _, [] => none
  | p :: ps, c :: cs => if c = p then dropPrefixL ps cs else none

/-- `re.sub` driver: scan left to right; where the matcher fires, emit its
output and continue after the consumed text, otherwise copy one character.
`fuel` bounds the recursion; callers pass the input length, which suffices
because every step consumes at least one character. -/
def subScan (m : List Char → Option (List Char × List Char)) : Nat → List Char → List Char
  | 0, s => s
  | _ + 1, [] => []
  | fuel + 1, c :: cs =>
    match m (c :: cs) with
    | some (out, rest) => out ++ subScan m fuel rest
    | none => c :: subScan m fuel cs

/-- Matcher for a literal `pat` with literal replacement `repl`. -/
def litMatch (pat repl s : List Char) : Option (List Char × List Char) :=
  match dropPrefixL pat s with
  | some rest => some (repl, rest)
  | none => none

/-- Line 167: `re.sub(FORMAT, "pickle", FASTA)` on character lists — every
occurrence of the format string anywhere in the path is replaced. -/
def pickleNameL (fmt l : List Char) : List Char :=
  subScan (litMatch fmt "pickle".toList) l.length l

/-- Line 167 on `String`s: the output path of the serialized store. -/
def pickleName (fmt path : String) : String := ⟨pickleNameL fmt.toList path.toList⟩

/-- Matcher for the line 73 template: `features` followed by exactly four
digits followed by a dot and the format string; the replacement re-emits the
captured `features<dddd>` group, then `-r2.` and the format string. -/
def featMatch (fmt : List Char) (s : List Char) : Option (List Char × List Char) :=
  match dropPrefixL "features".toList s with
  | none => none
  | some s1 =>
    match s1 with
    | d1 :: d2 :: d3 :: d4 :: s2 =>
      if d1.isDigit && d2.isDigit && d3.isDigit && d4.isDigit then
        match s2 with
        | '.' :: s3 =>
          match dropPrefixL fmt s3 with
          | some rest =>
            some ("features".toList ++ [d1, d2, d3, d4] ++ "-r2.".toList ++ fmt, rest)
          | none => none
        | _ => none
      else none
    | _ => none

/-- Line 73 on character lists: the mate-file name derivation. -/
def r2NameL (fmt l : List Char) : List Char := subScan (featMatch fmt) l.length l

/-- Line 73 on `String`s: the name the paired-mode mate stream is opened
from. -/
def r2FileName (fmt path : String) : String := ⟨r2NameL fmt.toList path.toList⟩

/-! ## Concrete inputs used by counterexamples and witnesses -/

/-- A run with nothing configured: FASTA, all windows (0,0), no whitelists or
templates, single-end. -/
def cfgEmpty : Config := ⟨"fasta", 0, 0, 0, 0, 0, 0, 0, none, none, none, none, none, none, false, false⟩

/-- A single FASTA read with no quality track. -/
def rdEmpty : Rd := ⟨"r1", "ACGT".toList, []⟩

/-- Cell window (0,1) with cell template `A`, FASTA, single-end. -/
def cfgW : Config := ⟨"fasta", 0, 0, 1, 0, 0, 0, 0, none, compilePattern "A", none, none, none, none, false, false⟩

/-- A read whose first base matches the cell template. -/
def rdW1 : Rd := ⟨"r1", "ACGT".toList, []⟩

/-- A read whose first base fails the cell template. -/
def rdW2 : Rd := ⟨"r2", "TTTT".toList, []⟩

/-- Reverse-UMI window (0,4) with reverse template `NNNN` and no reverse
whitelist, FASTA, single-end: the configuration the reverse-UMI block is
documented to handle. -/
def cfg3 : Config := ⟨"fasta", 0, 0, 0, 0, 0, 0, 4, none, none, none, none, none, compilePattern "NNNN", false, false⟩

/-- A read whose reverse complement starts with `AAAA`, giving a non-empty
reverse UMI under `cfg3`. -/
def rd3 : Rd := ⟨"r1", "AAAATTTT".toList, []⟩

/-- Paired mode with nothing else configured. -/
def cfg8 : Config := ⟨"fasta", 0, 0, 0, 0, 0, 0, 0, none, none, none, none, none, none, true, false⟩

/-- An arguments dictionary for an invocation that supplied `--r2umi 0,8`
(and `--minQ 20`). -/
def args2 : ArgsMap := ⟨none, none, some "0,8", none, none, none, none, none, none, some "20"⟩

/-! ## Counting helper lemmas for the Grouping Store -/

theorem appendAt_count (l : Bucket) (k v : String) :
    bucketCount (appendAt l k v) = bucketCount l + 1 := by
  induction l with
  | nil => simp [appendAt, bucketCount]
  | cons hd tl ih =>
    obtain ⟨k2, vs⟩ := hd
    by_cases h : k2 = k <;> simp [appendAt, bucketCount, h, ih] <;> omega

theorem updMol_count (m : MolMap) (mol sq rid : String) :
    molCount (updMol m mol sq rid) = molCount m + 1 := by
  induction m with
  | nil => simp [updMol, molCount, bucketCount]
  | cons hd tl ih =>
    obtain ⟨k2, b⟩ := hd
    by_cases h : k2 = mol <;> simp [updMol, molCount, h, ih, appendAt_count] <;> omega

theorem insertStore_count (st : Store) (cb mol sq rid : String) :
    storeCount (insertStore st cb mol sq rid) = storeCount st + 1 := by
  induction st with
  | nil => simp [insertStore, storeCount, molCount, bucketCount]
  | cons hd tl ih =>
    obtain ⟨k2, m⟩ := hd
    by_cases h : k2 = cb <;> simp [insertStore, storeCount, h, ih, updMol_count] <;> omega

theorem insertOne_count (st : Store) (t : String × List Char × String × String) :
    storeCount (insertOne st t) = storeCount st + 1 :=
  insertStore_count st t.2.2.1 t.2.2.2 ⟨t.2.1⟩ t.1

theorem processRead_balance (cfg : Config) (s : RunState) (rd : Rd) (mate : Option Rd)
    (s2 : RunState) (h : processRead cfg s rd mate = Except.ok s2) :
    s2.2.1 = s.2.1 + 1 ∧
    storeCount s2.1 + s2.2.2.1 + s2.2.2.2 = storeCount s.1 + s.2.2.1 + s.2.2.2 + 1 := by
  unfold processRead at h
  cases hsy : syncCheck cfg.pe rd mate with
  | some e => rw [hsy] at h; exact absurd h (by simp)
  | none =>
    rw [hsy] at h
    cases hc : checksAll cfg rd ⟨pySlice cfg.cb_start cfg.cb_end rd.seq⟩
        ⟨pySlice cfg.umi_start cfg.umi_end rd.seq⟩
        ⟨pySlice cfg.umi2_start cfg.umi2_end (revComp rd.seq)⟩ with
    | pass =>
      rw [hc] at h
      cases h
      exact ⟨rfl, by dsimp only; rw [insertOne_count]; omega⟩
    | lowQual =>
      rw [hc] at h
      cases h
      exact ⟨rfl, by dsimp only; omega⟩
    | badUmi =>
      rw [hc] at h
      cases h
      exact ⟨rfl, by dsimp only; omega⟩
    | keyErr k =>
      rw [hc] at h
      exact absurd h (by simp)

theorem runMain_inv (cfg : Config) :
    ∀ (reads mates : List Rd) (s s2 : RunState),
      runMain cfg reads mates s = Except.ok s2 →
      storeCount s.1 + s.2.2.1 + s.2.2.2 = s.2.1 →
      storeCount s2.1 + s2.2.2.1 + s2.2.2.2 = s2.2.1 := by
  intro reads
  induction reads with
  | nil =>
    intro mates s s2 h hP
    unfold runMain at h
    cases h
    exact hP
  | cons rd rds ih =>
    intro mates s s2 h hP
    unfold runMain at h
    cases hp : processRead cfg s rd mates.head? with
    | error e => rw [hp] at h; exact absurd h (by simp)
    | ok s1 =>
      rw [hp] at h
      have hb := processRead_balance cfg s rd mates.head? s1 hp
      exact ih _ s1 s2 h (by omega)

/-! ## Scanner lemmas for the two filename substitutions -/

theorem dropPrefixL_self (p s : List Char) : dropPrefixL p (p ++ s) = some s := by
  induction p with
  | nil => rfl
  | cons c cs ih => simp [dropPrefixL, ih]

theorem subScan_nilL (m : List Char → Option (List Char × List Char)) (fuel : Nat) :
    subScan m fuel [] = [] := by
  cases fuel <;> rfl

theorem subScan_shift (m : List Char → Option (List Char × List Char)) :
    ∀ (p q : List Char) (fuel : Nat),
      (∀ i, i < p.length → m ((p ++ q).drop i) = none) →
      subScan m (p.length + fuel) (p ++ q) = p ++ subScan m fuel q := by
  intro p
  induction p with
  | nil =>
    intro q fuel h
    simp
  | cons c cs ih =>
    intro q fuel h
    have h0 : m (c :: (cs ++ q)) = none := by
      have := h 0 (by simp)
      simpa using this
    have hsh : ∀ i, i < cs.length → m ((cs ++ q).drop i) = none := by
      intro i hi
      have := h (i + 1) (by simp; omega)
      simpa using this
    have hlen : (c :: cs).length + fuel = (cs.length + fuel) + 1 := by
      simp [Nat.succ_add]
    rw [hlen]
    show subScan m ((cs.length + fuel) + 1) (c :: (cs ++ q)) = (c :: cs) ++ subScan m fuel q
    simp only [subScan, h0]
    rw [ih q fuel hsh]
    simp

theorem subScan_matchHead (m : List Char → Option (List Char × List Char))
    (fuel : Nat) (q out rest : List Char) (hq : q ≠ []) (hm : m q = some (out, rest)) :
    subScan m (fuel + 1) q = out ++ subScan m fuel rest := by
  cases q with
  | nil => exact absurd rfl hq
  | cons c cs => simp [subScan, hm]

/-! ## Claim C4 -/

/-- C4 counterexample: with FASTQ-free format string `fasta` and input path
`fasta/reads.fasta`, line 167 replaces every occurrence of the format string
in the path, so the output is `pickle/reads.pickle`, not the
trailing-extension replacement `fasta/reads.pickle` the claim promises. -/
theorem thmC4_cex :
    pickleName "fasta" "fasta/reads.fasta" = "pickle/reads.pickle" ∧
    pickleName "fasta" "fasta/reads.fasta" ≠ "fasta/reads.pickle" := by
  exact ⟨rfl, by decide⟩

/-- C4 (amended): the output path replaces every occurrence of the format
string in the input path with `pickle`; this coincides with replacing the
trailing extension exactly when the format string occurs nowhere else, in
which case `<base>.<fmt>` maps to `<base>.pickle`. -/
theorem thmC4 (fmt base : List Char) (hf : fmt ≠ [])
    (h : ∀ i, i < base.length + 1 →
      litMatch fmt "pickle".toList ((base ++ '.' :: fmt).drop i) = none) :
    pickleNameL fmt (base ++ '.' :: fmt) = base ++ '.' :: "pickle".toList := by
  have hsplit : base ++ '.' :: fmt = (base ++ ['.']) ++ fmt := by simp
  have hyp2 : ∀ i, i < (base ++ ['.']).length →
      litMatch fmt "pickle".toList (((base ++ ['.']) ++ fmt).drop i) = none := by
    intro i hi
    have := h i (by simpa using hi)
    rw [hsplit] at this
    exact this
  unfold pickleNameL
  rw [hsplit, List.length_append]
  rw [subScan_shift (litMatch fmt "pickle".toList) (base ++ ['.']) fmt fmt.length hyp2]
  cases fmt with
  | nil => exact absurd rfl hf
  | cons f fs =>
    have hm : litMatch (f :: fs) "pickle".toList (f :: fs) = some ("pickle".toList, []) := by
      have hd := dropPrefixL_self (f :: fs) []
      rw [List.append_nil] at hd
      simp [litMatch, hd]
    rw [show (f :: fs).length = fs.length + 1 from rfl]
    rw [subScan_matchHead (litMatch (f :: fs) "pickle".toList) fs.length (f :: fs)
      "pickle".toList [] (by simp) hm]
    rw [subScan_nilL, List.append_nil]
    simp

/-- C4 witness: the amended statement at format `fasta` and base `reads`,
where the format occurs only as the trailing extension. -/
theorem thmC4_witness :
    pickleNameL "fasta".toList ("reads".toList ++ '.' :: "fasta".toList)
      = "reads".toList ++ '.' :: "pickle".toList :=
  thmC4 "fasta".toList "reads".toList (by decide) (by decide)

/-! ## Claim C5 -/

/-- C5 counterexample: the mate-file derivation of line 73 only fires on
names containing `features` plus four digits right before the format
extension; the name `sample.fasta` is returned unchanged, not mapped to
`sample-r2.fasta` as the claimed general `<base>.<ext>` to `<base>-r2.<ext>`
rule requires. -/
theorem thmC5_cex :
    r2FileName "fasta" "sample.fasta" = "sample.fasta" ∧
    r2FileName "fasta" "sample.fasta" ≠ "sample-r2.fasta" := by
  exact ⟨rfl, by decide⟩

/-- C5 (amended): the `-r2` marker is inserted before the extension only for
names in which `features` followed by exactly four digits immediately
precedes the `.<format>` extension: any `<pre>features<dddd>.<fmt>` whose
prefix contains no other match becomes `<pre>features<dddd>-r2.<fmt>`, and
the scan leaves names without such an occurrence unchanged. -/
theorem thmC5 (fmt pre : List Char) (d1 d2 d3 d4 : Char)
    (h1 : d1.isDigit = true) (h2 : d2.isDigit = true)
    (h3 : d3.isDigit = true) (h4 : d4.isDigit = true)
    (h : ∀ i, i < pre.length →
      featMatch fmt ((pre ++ "features".toList ++ [d1, d2, d3, d4] ++ '.' :: fmt).drop i) = none) :
    r2NameL fmt (pre ++ "features".toList ++ [d1, d2, d3, d4] ++ '.' :: fmt)
      = pre ++ "features".toList ++ [d1, d2, d3, d4] ++ "-r2.".toList ++ fmt := by
  have hdf : dropPrefixL fmt fmt = some [] := by
    have := dropPrefixL_self fmt []
    rwa [List.append_nil] at this
  have hm : featMatch fmt ("features".toList ++ [d1, d2, d3, d4] ++ '.' :: fmt)
      = some ("features".toList ++ [d1, d2, d3, d4] ++ "-r2.".toList ++ fmt, []) := by
    simp [featMatch, dropPrefixL, h1, h2, h3, h4, hdf]
  have hq : ("features".toList ++ [d1, d2, d3, d4] ++ '.' :: fmt) ≠ [] := by
    simp
  have h8 : "features".toList.length = 8 := rfl
  have hlen : ("features".toList ++ [d1, d2, d3, d4] ++ '.' :: fmt).length
      = (12 + fmt.length) + 1 := by
    simp [List.length_append, h8]
    omega
  have hassoc : pre ++ "features".toList ++ [d1, d2, d3, d4] ++ '.' :: fmt
      = pre ++ ("features".toList ++ [d1, d2, d3, d4] ++ '.' :: fmt) := by
    simp [List.append_assoc]
  have hyp : ∀ i, i < pre.length →
      featMatch fmt ((pre ++ ("features".toList ++ [d1, d2, d3, d4] ++ '.' :: fmt)).drop i)
        = none := by
    intro i hi
    have := h i hi
    rwa [hassoc] at this
  unfold r2NameL
  rw [hassoc, List.length_append]
  rw [subScan_shift (featMatch fmt) pre
    ("features".toList ++ [d1, d2, d3, d4] ++ '.' :: fmt)
    ("features".toList ++ [d1, d2, d3, d4] ++ '.' :: fmt).length hyp]
  rw [hlen]
  rw [subScan_matchHead (featMatch fmt) (12 + fmt.length)
    ("features".toList ++ [d1, d2, d3, d4] ++ '.' :: fmt)
    ("features".toList ++ [d1, d2, d3, d4] ++ "-r2.".toList ++ fmt) [] hq hm]
  rw [subScan_nilL, List.append_nil]
  simp [List.append_assoc]

/-- C5 witness: the amended statement at `dir/features0001.fasta`, which maps
to `dir/features0001-r2.fasta`. -/
theorem thmC5_witness :
    r2NameL "fasta".toList
        ("dir/".toList ++ "features".toList ++ ['0', '0', '0', '1'] ++ '.' :: "fasta".toList)
      = "dir/".toList ++ "features".toList ++ ['0', '0', '0', '1'] ++ "-r2.".toList ++ "fasta".toList :=
  thmC5 "fasta".toList "dir/".toList '0' '0' '0' '1'
    (by decide) (by decide) (by decide) (by decide) (by decide)

/-! ## Claim C1 -/

/-- C1 counterexample: with no region configured the read reaches
reconciliation with both strings empty, and both remain empty afterwards —
the degenerate empty/empty key even reaches the Grouping Store — so it is
false that the cell barcode and molecule identity are never simultaneously
empty after reconciliation. -/
theorem thmC1_cex :
    ¬ ((reconcile "" "").1 ≠ "" ∨ (reconcile "" "").2 ≠ "") ∧
    runMain cfgEmpty [rdEmpty] [] ([], 0, 0, 0)
      = Except.ok ([("", [("", [("ACGT", ["r1"])])])], 1, 0, 0) :=
  ⟨by decide, by rfl⟩

/-- C1 (amended): after the reconciliation of lines 145-155, the cell barcode
and the molecule identity are never simultaneously empty provided at least
one of them was non-empty beforehand; if both were empty, both stay empty. -/
theorem thmC1 (cb mol : String) (h : cb ≠ "" ∨ mol ≠ "") :
    (reconcile cb mol).1 ≠ "" ∧ (reconcile cb mol).2 ≠ "" := by
  by_cases hc : cb = ""
  · rcases h with h | h
    · exact absurd hc h
    · simp [reconcile, hc, h]
  · by_cases hm : mol = "" <;> simp [reconcile, hc, hm]

/-- C1 witness: the amended statement applied at cell barcode `AC` and empty
molecule identity. -/
theorem thmC1_witness :
    (("AC" : String) ≠ "" ∨ ("" : String) ≠ "") ∧
    (reconcile "AC" "").1 ≠ "" ∧ (reconcile "AC" "").2 ≠ "" :=
  ⟨Or.inl (by decide), thmC1 "AC" "" (Or.inl (by decide))⟩

/-! ## Claim C2 -/

/-- C2: supplying `--r2umi 0,8` never configures the reverse-UMI region.
Line 61 tests the declared key `--r2umi` but line 62 reads the undeclared key
`--umi2`, so the startup region parse raises `KeyError` instead of producing
the offsets (0, 8). -/
theorem thmC2 : umi2Region args2 = Except.error "--umi2" := rfl

/-! ## Claim C3 -/

/-- C3: a read with a non-empty reverse UMI, only a reverse template
configured (no reverse whitelist), FASTA input: instead of testing the
template and either counting the read as illegal or continuing, the loop
evaluates `arguments["umi2--Pattern"]` (line 130) — a key docopt never
defines — and the run terminates with `KeyError`. -/
theorem thmC3 :
    processRead cfg3 ([], 0, 0, 0) rd3 none
      = Except.error (Fatal.keyError "umi2--Pattern") := rfl

/-! ## Claim C7 -/

/-- C7: whenever the loop reaches end-of-stream (the run returns normally),
the number of read ids stored across all (cell, molecule, sequence) buckets
plus the low-quality counter plus the illegal-identity counter equals the
total number of reads seen; each read takes exactly one of the three exits
(first failing check wins), and every surviving read is inserted exactly
once. -/
theorem thmC7 (cfg : Config) (reads mates : List Rd) (st : Store) (c l b : Nat)
    (h : runMain cfg reads mates ([], 0, 0, 0) = Except.ok (st, c, l, b)) :
    storeCount st + l + b = c := by
  have hinv := runMain_inv cfg reads mates ([], 0, 0, 0) (st, c, l, b) h (by simp [storeCount])
  simpa using hinv

/-- C7 witness: a two-read FASTA run in which one read passes the cell
template and one fails it ends with one stored id, no low-quality discards,
one illegal discard, and two reads seen. -/
theorem thmC7_witness :
    storeCount [("A", [("A", [("CGT", ["r1;cell=A"])])])] + 0 + 1 = 2 :=
  thmC7 cfgW [rdW1, rdW2] [] [("A", [("A", [("CGT", ["r1;cell=A"])])])] 2 0 1 (by rfl)

/-! ## Claim C9 -/

/-- C9: in each of the three validation blocks, when both a whitelist and a
compiled template are configured for the field, the outcome is the one
obtained with no template at all — the template is never consulted — and for
a non-empty value that passes the quality gate the outcome is decided by
exact whitelist membership alone. -/
theorem thmC9 (format : String) (minQ : Int) (quals : List Int) (a b : Nat)
    (w : List String) (p : Option (List (List Char))) (v : String)
    (hv : v ≠ "") (hq : (format == "fastq" && lowQualWindow minQ quals a b) = false) :
    cellCheckBlock format minQ quals a b (some w) p v
        = cellCheckBlock format minQ quals a b (some w) none v ∧
    umiCheckBlock format minQ quals a b (some w) p v
        = umiCheckBlock format minQ quals a b (some w) none v ∧
    umi2CheckBlock format minQ quals a b (some w) p v
        = umi2CheckBlock format minQ quals a b (some w) none v ∧
    cellCheckBlock format minQ quals a b (some w) p v
        = (if w.contains v then CheckRes.pass else CheckRes.badUmi) ∧
    umiCheckBlock format minQ quals a b (some w) p v
        = (if w.contains v then CheckRes.pass else CheckRes.badUmi) ∧
    umi2CheckBlock format minQ quals a b (some w) p v
        = (if w.contains v then CheckRes.pass else CheckRes.badUmi) := by
  refine ⟨rfl, rfl, rfl, ?_, ?_, ?_⟩ <;>
    simp [cellCheckBlock, umiCheckBlock, umi2CheckBlock, hv, hq]

/-- C9 witness: FASTA input, whitelist `["AAAA"]` together with template
`[['C']]` on every field, value `AAAA`: all six equations at a concrete
instance. -/
theorem thmC9_witness :
    cellCheckBlock "fasta" 0 [] 0 4 (some ["AAAA"]) (some [['C']]) "AAAA"
        = cellCheckBlock "fasta" 0 [] 0 4 (some ["AAAA"]) none "AAAA" ∧
    umiCheckBlock "fasta" 0 [] 0 4 (some ["AAAA"]) (some [['C']]) "AAAA"
        = umiCheckBlock "fasta" 0 [] 0 4 (some ["AAAA"]) none "AAAA" ∧
    umi2CheckBlock "fasta" 0 [] 0 4 (some ["AAAA"]) (some [['C']]) "AAAA"
        = umi2CheckBlock "fasta" 0 [] 0 4 (some ["AAAA"]) none "AAAA" ∧
    cellCheckBlock "fasta" 0 [] 0 4 (some ["AAAA"]) (some [['C']]) "AAAA"
        = (if ["AAAA"].contains "AAAA" then CheckRes.pass else CheckRes.badUmi) ∧
    umiCheckBlock "fasta" 0 [] 0 4 (some ["AAAA"]) (some [['C']]) "AAAA"
        = (if ["AAAA"].contains "AAAA" then CheckRes.pass else CheckRes.badUmi) ∧
    umi2CheckBlock "fasta" 0 [] 0 4 (some ["AAAA"]) (some [['C']]) "AAAA"
        = (if ["AAAA"].contains "AAAA" then CheckRes.pass else CheckRes.badUmi) :=
  thmC9 "fasta" 0 [] 0 4 ["AAAA"] (some [['C']]) "AAAA" (by decide) (by decide)

/-! ## Claim C10 -/

/-- C10: in paired mode the record that is annotated and inserted is the
whole untrimmed mate record — the sequence key is the full mate sequence, the
`;cell=` and `;umi=` annotations are appended to the mate id, the keys come
from reconciling the extracted values — and the result is independent of both
the revcomp flag and the entire primary record, whose trimmed slice and id
are discarded. -/
theorem thmC10 (ce ue u2e : Nat) (rc : Bool) (rd rdOther r2 : Rd) (cb fwd rev : String) :
    trimAnnotate ce ue u2e true rc rd (some r2) cb fwd rev
      = (annotateId r2.id cb (fwd ++ rev), r2.seq,
         (reconcile cb (fwd ++ rev)).1, (reconcile cb (fwd ++ rev)).2) ∧
    trimAnnotate ce ue u2e true rc rd (some r2) cb fwd rev
      = trimAnnotate ce ue u2e true false rdOther (some r2) cb fwd rev :=
  ⟨rfl, rfl⟩

/-! ## Claim C6 -/

/-- C6 counterexample: with template `AC` compiled as on lines 192-193 and no
whitelist, the value `ACGT` — which matches the compiled classes only as a
proper prefix and is not a full-string match — is accepted by the cell block
(`re.match` on line 105 anchors at the start only), not rejected as an
illegal identity. -/
theorem thmC6_cex :
    compilePattern "AC" = some [['A'], ['C']] ∧
    specFullStringMatch [['A'], ['C']] "ACGT".toList = false ∧
    cellCheckBlock "fasta" 0 [] 0 4 none (compilePattern "AC") "ACGT" = CheckRes.pass ∧
    ¬ cellCheckBlock "fasta" 0 [] 0 4 none (compilePattern "AC") "ACGT" = CheckRes.badUmi := by
  refine ⟨rfl, rfl, rfl, ?_⟩
  decide

/-- C6 (amended): when only a template is configured, validation requires the
compiled classes to match a prefix of the value, not the whole value:
matching is monotone under appending trailing characters, so a value that
extends a matching prefix is accepted rather than rejected. -/
theorem thmC6 (p : List (List Char)) (v extra : List Char)
    (h : classMatch p v = true) : classMatch p (v ++ extra) = true := by
  induction p generalizing v with
  | nil => rfl
  | cons cls ps ih =>
    cases v with
    | nil => exact absurd h (by simp [classMatch])
    | cons c cs =>
      simp only [classMatch, List.cons_append, Bool.and_eq_true] at h ⊢
      exact ⟨h.1, ih cs h.2⟩

/-- C6 witness: the compiled template `AC` matches `AC`, hence also the
extended value `ACGT`. -/
theorem thmC6_witness :
    classMatch [['A'], ['C']] "AC".toList = true ∧
    classMatch [['A'], ['C']] ("AC".toList ++ "GT".toList) = true :=
  ⟨by decide, thmC6 [['A'], ['C']] "AC".toList "GT".toList (by decide)⟩

/-! ## Claim C8 -/

/-- C8: a paired-mode id mismatch (`read1/1` vs `read2/2`) does terminate the
run before any filtering, but the abort is a `NameError` raised while
evaluating the f-string passed to `sys.exit` — the variable `tempseq` on
line 87 is not defined — so the promised descriptive message naming the file
and the read pair is never printed. -/
theorem thmC8 :
    processRead cfg8 ([], 0, 0, 0) (⟨"read1/1", "ACGT".toList, []⟩ : Rd)
      (some (⟨"read2/2", "GGGG".toList, []⟩ : Rd))
      = Except.error (Fatal.nameError "tempseq") := rfl

end FindUmis
